import Mathlib

/-!
Verification of the kiwi task-orchestration subsystem.

Shallow embedding of:
- `ConcurrencyLimiter` (src concurrency module): a single-key semaphore with a
  FIFO wait queue of `Waiter`s.
- `SessionManager` (src session-manager module): task records, launch,
  cancellation, event-driven and polling completion detection.

State-mutating TypeScript methods are embedded as pure functions returning the
updated record together with the externally visible effects (slot releases,
return values, granted waiters).  Environment interactions (clock, SDK calls)
are passed in as explicit parameters/outcomes.
-/

namespace Kiwi

/-! ## Data model (types module) -/

inductive TaskStatus
  | pending
  | running
  | completed
  | error
  | cancelled
deriving DecidableEq, Repr

/-- `BackgroundTask` record.  Times are `Nat` milliseconds. -/
structure Task where
  id : String
  sessionID : Option String := none
  parentSessionID : String
  description : String
  prompt : String
  status : TaskStatus
  startedAt : Option Nat := none
  completedAt : Option Nat := none
  result : Option String := none
  error : Option String := none
  lastMsgCount : Option Nat := none
  stablePolls : Option Nat := none
deriving DecidableEq, Repr

structure LaunchInput where
  description : String
  prompt : String
  parentSessionID : String
deriving DecidableEq, Repr

structure OrchestrationConfig where
  maxConcurrent : Nat
  pollingIntervalMs : Nat
  taskTimeoutMs : Nat
  summaryMaxChars : Nat
deriving DecidableEq, Repr

def DEFAULT_CONFIG : OrchestrationConfig :=
  { maxConcurrent := 3
    pollingIntervalMs := 3000
    taskTimeoutMs := 120000
    summaryMaxChars := 8000 }

def STABLE_POLL_THRESHOLD : Nat := 3

def TaskStatus.isTerminal : TaskStatus → Bool
  | .completed => true
  | .error => true
  | .cancelled => true
  | _ => false

/-- Rank of a status in the lifecycle order `pending → running → terminal`. -/
def TaskStatus.rank : TaskStatus → Nat
  | .pending => 0
  | .running => 1
  | _ => 2

/-! ## ConcurrencyLimiter (concurrency module)

A `Waiter` in the source holds promise callbacks and a `settled` flag; here a
waiter is identified by its arrival ordinal `wid`, and granting/rejecting it is
reported in each operation's result instead of invoking a callback. -/

structure Waiter where
  wid : Nat
  settled : Bool
deriving DecidableEq, Repr

structure ConcurrencyLimiter where
  maxConcurrent : Nat
  count : Nat
  queue : List Waiter
  nextWid : Nat := 0
deriving DecidableEq, Repr

def ConcurrencyLimiter.init (maxConcurrent : Nat) : ConcurrencyLimiter :=
  { maxConcurrent := maxConcurrent, count := 0, queue := [] }

inductive AcquireResult
  | granted
  | queued (wid : Nat)
deriving DecidableEq, Repr

/-- `acquire()`: grant immediately if under the limit, else enqueue a waiter. -/
def ConcurrencyLimiter.acquire (l : ConcurrencyLimiter) :
    ConcurrencyLimiter × AcquireResult :=
  if l.count < l.maxConcurrent then
    ({ l with count := l.count + 1 }, .granted)
  else
    ({ l with queue := l.queue ++ [⟨l.nextWid, false⟩], nextWid := l.nextWid + 1 },
      .queued l.nextWid)

/-- The `while` loop inside `release()`: shift entries off the queue until an
unsettled waiter is found (it is granted) or the queue is exhausted. -/
def releaseLoop : List Waiter → Option (Nat × List Waiter)
  | [] => none
  | w :: rest => if w.settled then releaseLoop rest else some (w.wid, rest)

/-- `release()`: hand the slot to the first unsettled waiter (count unchanged),
or, with no such waiter, decrement the count floored at 0 (`Nat` subtraction).
The second component is the waiter granted the slot, if any. -/
def ConcurrencyLimiter.release (l : ConcurrencyLimiter) :
    ConcurrencyLimiter × Option Nat :=
  match releaseLoop l.queue with
  | some (wid, rest) => ({ l with queue := rest }, some wid)
  | none => ({ l with queue := [], count := l.count - 1 }, none)

/-- `clear()`: reject every still-pending waiter, empty the queue, zero the
count.  The second component lists the rejected waiters. -/
def ConcurrencyLimiter.clear (l : ConcurrencyLimiter) :
    ConcurrencyLimiter × List Nat :=
  ({ l with queue := [], count := 0 },
    (l.queue.filter (fun w => !w.settled)).map (·.wid))

inductive LimiterOp
  | acq
  | rel
  | clr
deriving DecidableEq, Repr

def limStep (l : ConcurrencyLimiter) : LimiterOp → ConcurrencyLimiter
  | .acq => l.acquire.1
  | .rel => l.release.1
  | .clr => l.clear.1

def limRun (l : ConcurrencyLimiter) (ops : List LimiterOp) : ConcurrencyLimiter :=
  ops.foldl limStep l


/-! ## SessionManager (session-manager module)

Each method is embedded as a pure function on the `Task` record.  The SDK
calls' outcomes (clock readings, extraction results, message-count fetches,
the batched status query) are explicit parameters, so one Lean application
corresponds to one invocation under one environment behaviour. -/

/-- Result of a resolution attempt: the updated task and whether the
concurrency slot was released by this call. -/
structure ResolveResult where
  task : Task
  released : Bool
deriving DecidableEq, Repr

/-- The entry guard of `tryComplete`: the attempt proceeds only for a running
task that has a session.  In the source the method then suspends on
`await extractResult(...)` before any write, so other operations can run
between this check and the commit phase below. -/
def tryCompleteCheck (t : Task) : Bool :=
  decide (t.status = TaskStatus.running) && decide (t.sessionID ≠ none)

/-- The commit phase of `tryComplete`, resumed after the extraction suspension
and executed without re-checking the status: sets `completed` with the result
or `error` with the failure detail, stamps `completedAt`, and the `finally`
releases the slot in both branches. -/
def tryCompleteCommit (t : Task) (now : Nat) (extraction : Except String String) :
    ResolveResult :=
  match extraction with
  | .ok r =>
      ⟨{ t with status := .completed, completedAt := some now, result := some r },
        true⟩
  | .error e =>
      ⟨{ t with status := .error, completedAt := some now, error := some e },
        true⟩

/-- `tryComplete` as one non-overlapping invocation: the entry guard followed
immediately by the commit phase.  Overlapping invocations interleave the two
phases, which is the subject of the double-commit and terminal-overwrite
theorems below. -/
def tryComplete (t : Task) (now : Nat) (extraction : Except String String) :
    ResolveResult :=
  if tryCompleteCheck t then tryCompleteCommit t now extraction else ⟨t, false⟩

/-- Result of `cancelTask`: updated task, boolean return value, whether the
slot was released, whether an abort of the external session was attempted. -/
structure CancelResult where
  task : Task
  returned : Bool
  released : Bool
  abortAttempted : Bool
deriving DecidableEq, Repr

/-- `cancelTask` on a task found in the registry: a no-op returning `false` on
a terminal task; otherwise sets `cancelled`, stamps `completedAt`, best-effort
aborts the session when one exists, releases the slot, returns `true`. -/
def cancelTask (t : Task) (now : Nat) : CancelResult :=
  if t.status = TaskStatus.completed ∨ t.status = TaskStatus.cancelled ∨
      t.status = TaskStatus.error then
    ⟨t, false, false, false⟩
  else
    ⟨{ t with status := .cancelled, completedAt := some now },
      true, true, t.sessionID.isSome⟩

/-- The timeout test in `pollTask`: elapsed time since `startedAt` exceeds the
configured timeout (`Nat` subtraction models non-negative elapsed time). -/
def timedOut (cfg : OrchestrationConfig) (t : Task) (now : Nat) : Bool :=
  match t.startedAt with
  | some s => decide (now - s > cfg.taskTimeoutMs)
  | none => false

/-- The direct status check in `pollTask`: the batched statuses, when present,
report the task's session as idle. -/
def statusIdle (statuses : Option (List (String × String)))
    (sid : Option String) : Bool :=
  match statuses, sid with
  | some m, some s => decide (m.lookup s = some "idle")
  | _, _ => false

/-- The stability-detection tail of `pollTask`: on a successful message-count
fetch, an unchanged count increments `stablePolls` (from 0 when unset) and
triggers `tryComplete` at the threshold; a changed (or first) count records it
and resets `stablePolls` to 0.  A failed fetch is non-fatal. -/
def pollStability (t : Task) (now : Nat) (msgCountRes : Except Unit Nat)
    (extraction : Except String String) : ResolveResult :=
  match msgCountRes with
  | .error _ => ⟨t, false⟩
  | .ok n =>
    match t.lastMsgCount with
    | some c =>
      if n = c then
        let sp := t.stablePolls.getD 0 + 1
        if sp ≥ STABLE_POLL_THRESHOLD then
          tryComplete { t with stablePolls := some sp } now extraction
        else ⟨{ t with stablePolls := some sp }, false⟩
      else ⟨{ t with lastMsgCount := some n, stablePolls := some 0 }, false⟩
    | none => ⟨{ t with lastMsgCount := some n, stablePolls := some 0 }, false⟩

/-- `pollTask`: guard (`running` with a session), then timeout check (cancel +
record a timeout error), then direct status check (resolve), then stability
fallback. -/
def pollTask (cfg : OrchestrationConfig) (t : Task) (now : Nat)
    (statuses : Option (List (String × String)))
    (msgCountRes : Except Unit Nat) (extraction : Except String String) :
    ResolveResult :=
  if t.status ≠ TaskStatus.running ∨ t.sessionID = none then ⟨t, false⟩
  else if timedOut cfg t now then
    let c := cancelTask t now
    ⟨{ c.task with error := some "Task timed out" }, c.released⟩
  else if statusIdle statuses t.sessionID then
    tryComplete t now extraction
  else
    pollStability t now msgCountRes extraction

/-! ### Launch -/

/-- Environment behaviour during one `launch` call: slot acquisition may
reject; `session.create` may fail; `session.promptAsync` may fail after the
task was marked running; or everything succeeds. -/
inductive LaunchOutcome
  | acquireFailed
  | createFailed (msg : String)
  | promptFailed (sid : String) (msg : String)
  | ok (sid : String)
deriving DecidableEq, Repr

structure LaunchResult where
  task : Task
  acquired : Bool
  released : Bool
deriving DecidableEq, Repr

/-- `createTask`: a fresh `pending` record. -/
def createTask (input : LaunchInput) (id : String) : Task :=
  { id := id
    parentSessionID := input.parentSessionID
    description := input.description
    prompt := input.prompt
    status := .pending }

/-- `launch`: creates the task, acquires a slot (failure → `error`, no slot
held), then `startSession` (create failure → `error` + release; prompt failure
after the running transition → `error` + release; success → `running` with
`sessionID` and `startedAt` recorded).  Always returns the task. -/
def launch (input : LaunchInput) (id : String) (now : Nat)
    (out : LaunchOutcome) : LaunchResult :=
  let t := createTask input id
  match out with
  | .acquireFailed =>
      let t1 := { t with
                  status := TaskStatus.error,
                  error := some "Failed to acquire concurrency slot" }
      ⟨t1, false, false⟩
  | .createFailed m =>
      ⟨{ t with status := TaskStatus.error, error := some m }, true, true⟩
  | .promptFailed sid m =>
      let t1 := { t with
                  sessionID := some sid, startedAt := some now,
                  status := TaskStatus.error, error := some m }
      ⟨t1, true, true⟩
  | .ok sid =>
      let t1 := { t with
                  sessionID := some sid, startedAt := some now,
                  status := TaskStatus.running }
      ⟨t1, true, false⟩

/-! ### Result extraction -/

inductive MsgPart
  | text (s : String)
  | other (tag : String)
deriving DecidableEq, Repr

/-- A message from `session.messages`, flattened to its role and parts. -/
structure Message where
  role : String
  parts : List MsgPart
deriving DecidableEq, Repr

def textsOf (parts : List MsgPart) : List String :=
  parts.filterMap fun p =>
    match p with
    | .text s => some s
    | .other _ => none

/-- The reverse-iteration loop of `extractResult`: walk the messages from the
most recent, take the text parts of the first assistant message, then break. -/
def firstAssistantTexts : List Message → List String
  | [] => []
  | m :: rest =>
      if m.role = "assistant" then textsOf m.parts else firstAssistantTexts rest

/-- `extractResult`: text parts of the latest assistant message, joined with
blank lines, truncated to `summaryMaxChars` with a marker when over budget;
the sentinel when there is nothing to report. -/
def extractResult (maxChars : Nat) (msgs : List Message) : String :=
  let textParts := firstAssistantTexts msgs.reverse
  if textParts.isEmpty then "(no output)"
  else
    let result := String.intercalate "\n\n" textParts
    if result.length > maxChars then
      String.take result maxChars ++ "\n\n[... truncated]"
    else result

/-! ### Poll loop over the registry -/

/-- `pollRunningTasks`: collect the running tasks (return if none), perform the
batched status query (a failure aborts the tick), then poll each running task
that has a session.  `msgCounts` and `extractions` give, per session id, the
outcome the environment would supply to that task's poll step. -/
def pollRunningTasks (cfg : OrchestrationConfig) (tasks : List Task) (now : Nat)
    (statusRes : Except Unit (List (String × String)))
    (msgCounts : String → Except Unit Nat)
    (extractions : String → Except String String) : List Task :=
  let running := tasks.filter (fun t => t.status = TaskStatus.running)
  if running.isEmpty then tasks
  else
    match statusRes with
    | .error _ => tasks
    | .ok statuses =>
        tasks.map fun t =>
          match t.sessionID with
          | none => t
          | some sid =>
              if t.status = TaskStatus.running then
                (pollTask cfg t now (some statuses) (msgCounts sid)
                  (extractions sid)).task
              else t

/-! ### Operations on one task, for lifecycle interleavings -/

/-- One atomic operation that can touch an existing task: the resolve step
(reached from `handleEvent`'s deferred completion or from the poll path), a
cancellation, a poll step, or `launchAndWait`'s deadline branch (which cancels
and records a timeout cause only while the task is still pending/running). -/
inductive TaskOp
  | resolve (now : Nat) (extraction : Except String String)
  | cancel (now : Nat)
  | poll (cfg : OrchestrationConfig) (now : Nat)
      (statuses : Option (List (String × String)))
      (msgCountRes : Except Unit Nat) (extraction : Except String String)
  | lawDeadline (now : Nat)
deriving Repr

def taskStep (t : Task) : TaskOp → Task
  | .resolve now e => (tryComplete t now e).task
  | .cancel now => (cancelTask t now).task
  | .poll cfg now st mc e => (pollTask cfg t now st mc e).task
  | .lawDeadline now =>
      if t.status = TaskStatus.running ∨ t.status = TaskStatus.pending then
        { (cancelTask t now).task with error := some "Task timed out" }
      else t

def runTask (t : Task) (ops : List TaskOp) : Task :=
  ops.foldl taskStep t

/-- A concrete running task used to instantiate theorems. -/
def sampleRunningTask : Task :=
  { id := "kiwi-1"
    sessionID := some "ses1"
    parentSessionID := "parent"
    description := "demo"
    prompt := "go"
    status := .running
    startedAt := some 1000 }

/-- A concrete running task with an observed message count and a reset
stability counter. -/
def stableSampleTask : Task :=
  { id := "kiwi-3"
    sessionID := some "ses3"
    parentSessionID := "parent"
    description := "demo"
    prompt := "go"
    status := .running
    startedAt := some 1000
    lastMsgCount := some 4
    stablePolls := some 0 }

/-- A concrete completed task used to instantiate theorems. -/
def sampleCompletedTask : Task :=
  { id := "kiwi-2"
    sessionID := some "ses2"
    parentSessionID := "parent"
    description := "demo"
    prompt := "go"
    status := .completed
    startedAt := some 1000
    completedAt := some 2000
    result := some "ok" }

/-! ## Theorems -/

/-! ### Status taxonomy lemmas -/

lemma isTerminal_iff (s : TaskStatus) :
    s.isTerminal = true ↔
      s = TaskStatus.completed ∨ s = TaskStatus.cancelled ∨ s = TaskStatus.error := by
  cases s <;> simp [TaskStatus.isTerminal]

lemma isTerminal_ne_running {s : TaskStatus} (h : s.isTerminal = true) :
    s ≠ TaskStatus.running := by
  cases s <;> simp_all [TaskStatus.isTerminal]

lemma isTerminal_ne_pending {s : TaskStatus} (h : s.isTerminal = true) :
    s ≠ TaskStatus.pending := by
  cases s <;> simp_all [TaskStatus.isTerminal]

lemma rank_le_two (s : TaskStatus) : s.rank ≤ 2 := by
  cases s <;> simp [TaskStatus.rank]

lemma rank_of_terminal {s : TaskStatus} (h : s.isTerminal = true) : s.rank = 2 := by
  cases s <;> simp_all [TaskStatus.isTerminal, TaskStatus.rank]

/-! ### No-op behaviour on terminal tasks -/

lemma tryComplete_terminal {t : Task} (now : Nat) (e : Except String String)
    (h : t.status.isTerminal = true) : tryComplete t now e = ⟨t, false⟩ := by
  simp [tryComplete, tryCompleteCheck, isTerminal_ne_running h]

lemma cancelTask_terminal {t : Task} (now : Nat)
    (h : t.status.isTerminal = true) : cancelTask t now = ⟨t, false, false, false⟩ := by
  rcases (isTerminal_iff _).1 h with h' | h' | h' <;> simp [cancelTask, h']

lemma pollTask_terminal {t : Task} (cfg : OrchestrationConfig) (now : Nat)
    (st : Option (List (String × String))) (mc : Except Unit Nat)
    (e : Except String String) (h : t.status.isTerminal = true) :
    pollTask cfg t now st mc e = ⟨t, false⟩ := by
  simp [pollTask, isTerminal_ne_running h]

lemma taskStep_terminal {t : Task} (op : TaskOp)
    (h : t.status.isTerminal = true) : taskStep t op = t := by
  cases op with
  | resolve now e => simp [taskStep, tryComplete_terminal now e h]
  | cancel now => simp [taskStep, cancelTask_terminal now h]
  | poll cfg now st mc e => simp [taskStep, pollTask_terminal cfg now st mc e h]
  | lawDeadline now =>
      simp [taskStep, isTerminal_ne_running h, isTerminal_ne_pending h]

/-! ### Status evolution of each step -/

lemma tryComplete_status_cases (t : Task) (now : Nat) (e : Except String String) :
    (tryComplete t now e).task.status = t.status ∨
      (tryComplete t now e).task.status.isTerminal = true := by
  unfold tryComplete
  split
  · cases e <;> simp [tryCompleteCommit, TaskStatus.isTerminal]
  · exact Or.inl rfl

lemma cancelTask_status_cases (t : Task) (now : Nat) :
    (cancelTask t now).task.status = t.status ∨
      (cancelTask t now).task.status.isTerminal = true := by
  unfold cancelTask
  split
  · exact Or.inl rfl
  · simp [TaskStatus.isTerminal]

lemma pollStability_status_cases (t : Task) (now : Nat) (mc : Except Unit Nat)
    (e : Except String String) :
    (pollStability t now mc e).task.status = t.status ∨
      (pollStability t now mc e).task.status.isTerminal = true := by
  unfold pollStability
  cases mc with
  | error u => exact Or.inl rfl
  | ok n =>
      cases h : t.lastMsgCount with
      | none => exact Or.inl rfl
      | some c =>
          simp only
          split
          · split
            · exact tryComplete_status_cases _ now e
            · exact Or.inl rfl
          · exact Or.inl rfl

lemma pollTask_status_cases (cfg : OrchestrationConfig) (t : Task) (now : Nat)
    (st : Option (List (String × String))) (mc : Except Unit Nat)
    (e : Except String String) :
    (pollTask cfg t now st mc e).task.status = t.status ∨
      (pollTask cfg t now st mc e).task.status.isTerminal = true := by
  unfold pollTask
  split
  · exact Or.inl rfl
  · next hguard =>
      push_neg at hguard
      obtain ⟨hrun, _⟩ := hguard
      split
      · right
        simp [cancelTask, hrun, TaskStatus.isTerminal]
      · split
        · exact tryComplete_status_cases t now e
        · exact pollStability_status_cases t now mc e

lemma taskStep_status_cases (t : Task) (op : TaskOp) :
    (taskStep t op).status = t.status ∨ (taskStep t op).status.isTerminal = true := by
  cases op with
  | resolve now e => exact tryComplete_status_cases t now e
  | cancel now => exact cancelTask_status_cases t now
  | poll cfg now st mc e => exact pollTask_status_cases cfg t now st mc e
  | lawDeadline now =>
      simp only [taskStep]
      split
      · next h =>
          right
          rcases h with h | h <;> simp [cancelTask, h, TaskStatus.isTerminal]
      · exact Or.inl rfl

lemma taskStep_rank_mono (t : Task) (op : TaskOp) :
    t.status.rank ≤ (taskStep t op).status.rank := by
  rcases taskStep_status_cases t op with h | h
  · rw [h]
  · rw [rank_of_terminal h]
    exact rank_le_two _

/-- Under serialized execution — each operation running to completion with no
interleaving at its suspension points — the status rank is monotone through
`pending → running → terminal`, and once the task is terminal no operation
changes its status or any other field of the record.  The program does not
guarantee this serialization; the terminal-overwrite theorem below shows the
property failing at a suspension-point interleaving. -/
theorem task_lifecycle_monotone (t : Task) (ops : List TaskOp) :
    t.status.rank ≤ (runTask t ops).status.rank ∧
      (t.status.isTerminal = true → runTask t ops = t) := by
  induction ops generalizing t with
  | nil => exact ⟨Nat.le_refl _, fun _ => rfl⟩
  | cons op ops ih =>
      refine ⟨?_, ?_⟩
      · calc t.status.rank ≤ (taskStep t op).status.rank := taskStep_rank_mono t op
          _ ≤ (runTask (taskStep t op) ops).status.rank := (ih (taskStep t op)).1
          _ = (runTask t (op :: ops)).status.rank := by simp [runTask, List.foldl_cons]
      · intro h
        have h1 : taskStep t op = t := taskStep_terminal op h
        have h2 := (ih t).2 h
        simp [runTask, List.foldl_cons, h1]
        simpa [runTask] using h2

/-- Witness for `task_lifecycle_monotone`: a concrete completed task is left
untouched by a cancel followed by a resolve attempt. -/
theorem task_lifecycle_monotone_witness :
    sampleCompletedTask.status.isTerminal = true ∧
      runTask sampleCompletedTask
        [TaskOp.cancel 7, TaskOp.resolve 8 (Except.ok "late")] =
        sampleCompletedTask := by
  refine ⟨by decide, ?_⟩
  exact (task_lifecycle_monotone sampleCompletedTask
    [TaskOp.cancel 7, TaskOp.resolve 8 (Except.ok "late")]).2 (by decide)

/-- Under serialized execution of two resolution attempts — the second entering
only after the first has committed — exactly one succeeds: the first commits a
single terminal state (`completed` or `error`) and releases the slot; the
second observes `status ≠ running`, releases nothing and changes nothing.  The
program does not guarantee this serialization; the double-commit theorem below
shows the property failing at a suspension-point interleaving. -/
theorem resolve_exactly_once (t : Task) (now1 now2 : Nat)
    (e1 e2 : Except String String)
    (hr : t.status = TaskStatus.running) (hs : t.sessionID ≠ none) :
    ((tryComplete t now1 e1).task.status = TaskStatus.completed ∨
        (tryComplete t now1 e1).task.status = TaskStatus.error) ∧
      (tryComplete t now1 e1).released = true ∧
      (tryComplete (tryComplete t now1 e1).task now2 e2).released = false ∧
      (tryComplete (tryComplete t now1 e1).task now2 e2).task =
        (tryComplete t now1 e1).task := by
  cases e1 <;> simp [tryComplete, tryCompleteCheck, tryCompleteCommit, hr, hs]

/-- Witness for `resolve_exactly_once` at a concrete running task. -/
theorem resolve_exactly_once_witness :
    sampleRunningTask.status = TaskStatus.running ∧
      sampleRunningTask.sessionID ≠ none ∧
      ((tryComplete sampleRunningTask 5 (Except.ok "r")).task.status =
          TaskStatus.completed ∨
        (tryComplete sampleRunningTask 5 (Except.ok "r")).task.status =
          TaskStatus.error) ∧
      (tryComplete sampleRunningTask 5 (Except.ok "r")).released = true ∧
      (tryComplete (tryComplete sampleRunningTask 5 (Except.ok "r")).task 6
          (Except.ok "r2")).released = false := by
  refine ⟨by decide, by decide, ?_⟩
  have h := resolve_exactly_once sampleRunningTask 5 6 (Except.ok "r")
    (Except.ok "r2") (by decide) (by decide)
  exact ⟨h.1, h.2.1, h.2.2.1⟩

/-- C1 (failing input).  The status re-check is not atomic with the commit: on
a concrete running task, a poll-path resolution attempt passes the entry guard
and suspends at extraction; the event path's deferred attempt then also passes
the guard on the still-running task; both commit phases then run, each
releasing the slot.  Two resolutions succeed, the slot is released twice, and
the second commit overwrites the first terminal state (`completed` becomes
`error` here) — contradicting "exactly one resolution succeeds and the slot is
released exactly once". -/
theorem resolve_double_commit_at_failing_input :
    tryCompleteCheck sampleRunningTask = true ∧
      (tryCompleteCommit sampleRunningTask 5 (Except.ok "r1")).task.status =
        TaskStatus.completed ∧
      (tryCompleteCommit sampleRunningTask 5 (Except.ok "r1")).released = true ∧
      (tryCompleteCommit
          (tryCompleteCommit sampleRunningTask 5 (Except.ok "r1")).task 6
          (Except.error "fetch failed")).task.status = TaskStatus.error ∧
      (tryCompleteCommit
          (tryCompleteCommit sampleRunningTask 5 (Except.ok "r1")).task 6
          (Except.error "fetch failed")).released = true := by
  decide

/-- C2 (failing input).  On a concrete running task, a resolution attempt
passes its entry guard and suspends at extraction; `cancelTask` then completes,
leaving the task `cancelled` — terminal; the resumed commit phase flips the
terminal task to `completed` and releases the slot again.  A terminal state is
left and its fields are mutated — contradicting "once terminal, no operation
changes its status or mutates any other field". -/
theorem terminal_state_left_at_failing_input :
    tryCompleteCheck sampleRunningTask = true ∧
      (cancelTask sampleRunningTask 5).task.status = TaskStatus.cancelled ∧
      (cancelTask sampleRunningTask 5).task.status.isTerminal = true ∧
      (tryCompleteCommit (cancelTask sampleRunningTask 5).task 6
          (Except.ok "r")).task.status = TaskStatus.completed ∧
      (tryCompleteCommit (cancelTask sampleRunningTask 5).task 6
          (Except.ok "r")).released = true := by
  decide

/-- C6.  A running task whose `startedAt` lies more than `taskTimeoutMs` in the
past is cancelled by the next poll step — `cancelled` status, `completedAt`
stamp, a recorded timeout error, slot released — independently of the batched
statuses, the message count and the extraction outcome, and with its stability
counters untouched. -/
theorem poll_timeout_cancels (cfg : OrchestrationConfig) (t : Task)
    (now s : Nat) (st : Option (List (String × String))) (mc : Except Unit Nat)
    (e : Except String String)
    (h1 : t.status = TaskStatus.running) (h2 : t.sessionID ≠ none)
    (hs : t.startedAt = some s) (helapsed : now - s > cfg.taskTimeoutMs) :
    pollTask cfg t now st mc e =
      ⟨{ t with
          status := TaskStatus.cancelled,
          completedAt := some now,
          error := some "Task timed out" }, true⟩ := by
  have ht : timedOut cfg t now = true := by
    simp [timedOut, hs, helapsed]
  simp [pollTask, h1, h2, ht, cancelTask]

/-- Witness for `poll_timeout_cancels`: the sample running task started at
1000 ms is cancelled when polled at 1000 + timeout + 1 ms. -/
theorem poll_timeout_cancels_witness :
    sampleRunningTask.status = TaskStatus.running ∧
      sampleRunningTask.startedAt = some 1000 ∧
      121001 - 1000 > DEFAULT_CONFIG.taskTimeoutMs ∧
      pollTask DEFAULT_CONFIG sampleRunningTask 121001 none
          (Except.ok 2) (Except.ok "r") =
        ⟨{ sampleRunningTask with
            status := TaskStatus.cancelled,
            completedAt := some 121001,
            error := some "Task timed out" }, true⟩ := by
  refine ⟨by decide, by decide, by decide, ?_⟩
  exact poll_timeout_cancels DEFAULT_CONFIG sampleRunningTask 121001 1000 none
    (Except.ok 2) (Except.ok "r") (by decide) (by decide) (by decide) (by decide)

/-- C7.  `cancelTask` on a terminal task is a no-op returning `false`, with no
release and no abort; on a pending or running task it sets `cancelled`, stamps
`completedAt`, attempts the abort exactly when a session exists, releases the
slot, and returns `true`. -/
theorem cancelTask_spec (t : Task) (now : Nat) :
    (t.status.isTerminal = true → cancelTask t now = ⟨t, false, false, false⟩) ∧
      ((t.status = TaskStatus.pending ∨ t.status = TaskStatus.running) →
        cancelTask t now =
          ⟨{ t with status := TaskStatus.cancelled, completedAt := some now },
            true, true, t.sessionID.isSome⟩) := by
  refine ⟨fun h => cancelTask_terminal now h, fun h => ?_⟩
  rcases h with h | h <;> simp [cancelTask, h]

/-- Witness for `cancelTask_spec`: no-op on the sample completed task,
cancellation on the sample running task. -/
theorem cancelTask_spec_witness :
    sampleCompletedTask.status.isTerminal = true ∧
      cancelTask sampleCompletedTask 9 = ⟨sampleCompletedTask, false, false, false⟩ ∧
      sampleRunningTask.status = TaskStatus.running ∧
      cancelTask sampleRunningTask 9 =
        ⟨{ sampleRunningTask with
            status := TaskStatus.cancelled, completedAt := some 9 },
          true, true, true⟩ := by
  refine ⟨by decide, (cancelTask_spec sampleCompletedTask 9).1 (by decide),
    by decide, ?_⟩
  have h := (cancelTask_spec sampleRunningTask 9).2 (Or.inr (by decide))
  simpa using h

/-- C9.  `launch` always hands back a task record, for every environment
outcome: slot-acquisition failure yields `status = error` with the
slot-unavailable cause and no slot held; a failure creating or starting the
context yields `status = error` with the failure detail and the acquired slot
released; success yields a `running` task holding its slot. -/
theorem launch_never_fails (input : LaunchInput) (id : String) (now : Nat) :
    ((launch input id now .acquireFailed).task.status = TaskStatus.error ∧
      (launch input id now .acquireFailed).task.error =
        some "Failed to acquire concurrency slot" ∧
      (launch input id now .acquireFailed).acquired = false ∧
      (launch input id now .acquireFailed).released = false) ∧
    (∀ m, (launch input id now (.createFailed m)).task.status = TaskStatus.error ∧
      (launch input id now (.createFailed m)).task.error = some m ∧
      (launch input id now (.createFailed m)).acquired = true ∧
      (launch input id now (.createFailed m)).released = true) ∧
    (∀ sid m,
      (launch input id now (.promptFailed sid m)).task.status = TaskStatus.error ∧
      (launch input id now (.promptFailed sid m)).task.error = some m ∧
      (launch input id now (.promptFailed sid m)).acquired = true ∧
      (launch input id now (.promptFailed sid m)).released = true) ∧
    (∀ sid, (launch input id now (.ok sid)).task.status = TaskStatus.running ∧
      (launch input id now (.ok sid)).task.sessionID = some sid ∧
      (launch input id now (.ok sid)).task.startedAt = some now ∧
      (launch input id now (.ok sid)).acquired = true ∧
      (launch input id now (.ok sid)).released = false) := by
  refine ⟨?_, ?_, ?_, ?_⟩ <;> simp [launch, createTask]

/-! ### Stability detection (C5) -/

lemma timedOut_congr (cfg : OrchestrationConfig) {t t' : Task}
    (h : t'.startedAt = t.startedAt) (now : Nat) :
    timedOut cfg t' now = timedOut cfg t now := by
  simp [timedOut, h]

lemma pollTask_eq_stability (cfg : OrchestrationConfig) (t : Task) (now : Nat)
    (st : Option (List (String × String))) (mc : Except Unit Nat)
    (e : Except String String)
    (h1 : t.status = TaskStatus.running) (h2 : t.sessionID ≠ none)
    (h3 : timedOut cfg t now = false) (h4 : statusIdle st t.sessionID = false) :
    pollTask cfg t now st mc e = pollStability t now mc e := by
  simp [pollTask, h1, h2, h3, h4]

/-- C5.  For a running, non-timed-out, non-idle-reported task with an observed
count `c`: a poll observing a different count resets the stable-poll counter to
0 and records the new count; a poll observing `c` below the threshold only
increments the counter; and from a reset counter, three consecutive polls
observing `c` leave the task running after the first and second and resolve it
to `completed` on the third. -/
theorem stability_detection (cfg : OrchestrationConfig) (t : Task)
    (now1 now2 now3 : Nat) (st : Option (List (String × String))) (c : Nat)
    (r : String)
    (h1 : t.status = TaskStatus.running) (h2 : t.sessionID ≠ none)
    (hto1 : timedOut cfg t now1 = false) (hto2 : timedOut cfg t now2 = false)
    (hto3 : timedOut cfg t now3 = false)
    (hidle : statusIdle st t.sessionID = false)
    (hlast : t.lastMsgCount = some c) :
    (∀ n, n ≠ c →
        pollTask cfg t now1 st (Except.ok n) (Except.ok r) =
          ⟨{ t with lastMsgCount := some n, stablePolls := some 0 }, false⟩) ∧
    (t.stablePolls.getD 0 + 1 < STABLE_POLL_THRESHOLD →
        pollTask cfg t now1 st (Except.ok c) (Except.ok r) =
          ⟨{ t with stablePolls := some (t.stablePolls.getD 0 + 1) }, false⟩) ∧
    (t.stablePolls = some 0 →
        pollTask cfg t now1 st (Except.ok c) (Except.ok r) =
          ⟨{ t with stablePolls := some 1 }, false⟩ ∧
        pollTask cfg { t with stablePolls := some 1 } now2 st (Except.ok c)
            (Except.ok r) =
          ⟨{ t with stablePolls := some 2 }, false⟩ ∧
        pollTask cfg { t with stablePolls := some 2 } now3 st (Except.ok c)
            (Except.ok r) =
          ⟨{ t with
              stablePolls := some 3,
              status := TaskStatus.completed,
              completedAt := some now3,
              result := some r }, true⟩) := by
  have hbase := pollTask_eq_stability cfg t now1 st (Except.ok c) (Except.ok r)
    h1 h2 hto1 hidle
  refine ⟨?_, ?_, ?_⟩
  · intro n hn
    rw [pollTask_eq_stability cfg t now1 st (Except.ok n) (Except.ok r)
      h1 h2 hto1 hidle]
    simp [pollStability, hlast, hn]
  · intro hlt
    rw [hbase]
    simp [pollStability, hlast, Nat.not_le_of_lt hlt]
  · intro hsp
    have e1 : pollTask cfg t now1 st (Except.ok c) (Except.ok r) =
        ⟨{ t with stablePolls := some 1 }, false⟩ := by
      rw [hbase]
      simp [pollStability, hlast, hsp, STABLE_POLL_THRESHOLD]
    have e2 : pollTask cfg { t with stablePolls := some 1 } now2 st
        (Except.ok c) (Except.ok r) = ⟨{ t with stablePolls := some 2 }, false⟩ := by
      rw [pollTask_eq_stability cfg { t with stablePolls := some 1 } now2 st
        (Except.ok c) (Except.ok r) (by simpa using h1) (by simpa using h2)
        ((timedOut_congr cfg rfl now2).trans hto2) (by simpa using hidle)]
      simp [pollStability, hlast, STABLE_POLL_THRESHOLD]
    have e3 : pollTask cfg { t with stablePolls := some 2 } now3 st
        (Except.ok c) (Except.ok r) =
        ⟨{ t with
            stablePolls := some 3,
            status := TaskStatus.completed,
            completedAt := some now3,
            result := some r }, true⟩ := by
      rw [pollTask_eq_stability cfg { t with stablePolls := some 2 } now3 st
        (Except.ok c) (Except.ok r) (by simpa using h1) (by simpa using h2)
        ((timedOut_congr cfg rfl now3).trans hto3) (by simpa using hidle)]
      simp [pollStability, hlast, STABLE_POLL_THRESHOLD, tryComplete,
        tryCompleteCheck, tryCompleteCommit, h1, h2]
    exact ⟨e1, e2, e3⟩

/-- Witness for `stability_detection`: on a concrete task with observed count 4
and counter 0, three polls observing 4 complete the task on the third poll
only, and a poll observing 7 resets the counter. -/
theorem stability_detection_witness :
    stableSampleTask.status = TaskStatus.running ∧
      stableSampleTask.lastMsgCount = some 4 ∧
      stableSampleTask.stablePolls = some 0 ∧
      pollTask DEFAULT_CONFIG stableSampleTask 2000 none (Except.ok 7)
          (Except.ok "r") =
        ⟨{ stableSampleTask with lastMsgCount := some 7, stablePolls := some 0 },
          false⟩ ∧
      pollTask DEFAULT_CONFIG stableSampleTask 2000 none (Except.ok 4)
          (Except.ok "r") =
        ⟨{ stableSampleTask with stablePolls := some 1 }, false⟩ ∧
      pollTask DEFAULT_CONFIG { stableSampleTask with stablePolls := some 2 }
          2002 none (Except.ok 4) (Except.ok "r") =
        ⟨{ stableSampleTask with
            stablePolls := some 3,
            status := TaskStatus.completed,
            completedAt := some 2002,
            result := some "r" }, true⟩ := by
  have h := stability_detection DEFAULT_CONFIG stableSampleTask 2000 2001 2002
    none 4 "r" (by decide) (by decide) (by decide) (by decide) (by decide)
    (by decide) (by decide)
  refine ⟨by decide, by decide, by decide, h.1 7 (by decide), ?_, ?_⟩
  · exact (h.2.2 (by decide)).1
  · exact (h.2.2 (by decide)).2.2

/-! ### Result extraction (C8) -/

lemma firstAssistantTexts_eq_find (l : List Message) :
    firstAssistantTexts l =
      (match l.find? (fun m => m.role == "assistant") with
        | some m => textsOf m.parts
        | none => []) := by
  induction l with
  | nil => rfl
  | cons m rest ih =>
      by_cases h : m.role = "assistant"
      · simp [firstAssistantTexts, List.find?, h]
      · have hb : (m.role == "assistant") = false := by simp [h]
        simp [firstAssistantTexts, List.find?, h, ih, hb]

/-- C8.  `extractResult` returns the latest assistant message's text parts
joined, truncated with a marker when over the character budget; and when no
assistant message carries a text part, it returns the sentinel `"(no output)"`
and resolution commits `completed` with that sentinel, not an error. -/
theorem extract_latest_assistant (maxChars : Nat) (msgs : List Message) :
    (∀ m, msgs.reverse.find? (fun m => m.role == "assistant") = some m →
        textsOf m.parts ≠ [] →
        extractResult maxChars msgs =
          (if (String.intercalate "\n\n" (textsOf m.parts)).length > maxChars then
            String.take (String.intercalate "\n\n" (textsOf m.parts)) maxChars ++
              "\n\n[... truncated]"
          else String.intercalate "\n\n" (textsOf m.parts))) ∧
    ((∀ m ∈ msgs, m.role = "assistant" → textsOf m.parts = []) →
        extractResult maxChars msgs = "(no output)") ∧
    (∀ t now, t.status = TaskStatus.running → t.sessionID ≠ none →
        (∀ m ∈ msgs, m.role = "assistant" → textsOf m.parts = []) →
        (tryComplete t now (Except.ok (extractResult maxChars msgs))).task.status =
            TaskStatus.completed ∧
        (tryComplete t now (Except.ok (extractResult maxChars msgs))).task.result =
          some "(no output)") := by
  have hsent : (∀ m ∈ msgs, m.role = "assistant" → textsOf m.parts = []) →
      extractResult maxChars msgs = "(no output)" := by
    intro hall
    unfold extractResult
    rw [firstAssistantTexts_eq_find]
    cases hfind : msgs.reverse.find? (fun m => m.role == "assistant") with
    | none => simp
    | some m =>
        have hrole : m.role = "assistant" := by
          have := List.find?_some hfind
          simpa using this
        have hmem : m ∈ msgs := by
          have := List.mem_of_find?_eq_some hfind
          simpa using this
        simp [hall m hmem hrole]
  refine ⟨?_, hsent, ?_⟩
  · intro m hfind hne
    unfold extractResult
    rw [firstAssistantTexts_eq_find, hfind]
    simp [hne]
  · intro t now hst hsid hall
    simp [tryComplete, tryCompleteCheck, tryCompleteCommit, hst, hsid, hsent hall]

/-- Witness for `extract_latest_assistant`: a transcript whose last assistant
message carries text, and a transcript whose only assistant message has no
text part, resolved on a concrete running task. -/
theorem extract_latest_assistant_witness :
    extractResult 8000
        [⟨"user", [MsgPart.text "hi"]⟩,
          ⟨"assistant", [MsgPart.text "result text", MsgPart.other "tool"]⟩] =
      "result text" ∧
    extractResult 8000 [⟨"assistant", [MsgPart.other "tool"]⟩] = "(no output)" ∧
    (tryComplete sampleRunningTask 5
        (Except.ok (extractResult 8000
          [⟨"assistant", [MsgPart.other "tool"]⟩]))).task.status =
      TaskStatus.completed := by
  refine ⟨?_, ?_, ?_⟩
  · have h := (extract_latest_assistant 8000
      [⟨"user", [MsgPart.text "hi"]⟩,
        ⟨"assistant", [MsgPart.text "result text", MsgPart.other "tool"]⟩]).1
      ⟨"assistant", [MsgPart.text "result text", MsgPart.other "tool"]⟩
      (by decide) (by decide)
    simpa using h
  · exact (extract_latest_assistant 8000
      [⟨"assistant", [MsgPart.other "tool"]⟩]).2.1 (by decide)
  · exact ((extract_latest_assistant 8000
      [⟨"assistant", [MsgPart.other "tool"]⟩]).2.2 sampleRunningTask 5
      (by decide) (by decide) (by decide)).1

/-- C10.  When the batched status query of a poll tick fails, the tick performs
no per-task checks: every task record is returned unchanged, whatever the
per-session message counts and extraction outcomes would have been. -/
theorem poll_tick_frame_on_status_failure (cfg : OrchestrationConfig)
    (tasks : List Task) (now : Nat) (msgCounts : String → Except Unit Nat)
    (extractions : String → Except String String) :
    pollRunningTasks cfg tasks now (.error ()) msgCounts extractions = tasks := by
  simp [pollRunningTasks]



/-! ### Limiter lemmas -/

lemma limStep_maxConcurrent (l : ConcurrencyLimiter) (op : LimiterOp) :
    (limStep l op).maxConcurrent = l.maxConcurrent := by
  cases op <;>
    simp only [limStep, ConcurrencyLimiter.acquire, ConcurrencyLimiter.release,
      ConcurrencyLimiter.clear]
  · split <;> rfl
  · rcases h : releaseLoop l.queue with _ | ⟨wid, rest⟩ <;> simp [h]

lemma limStep_count_le (l : ConcurrencyLimiter) (op : LimiterOp)
    (h : l.count ≤ l.maxConcurrent) : (limStep l op).count ≤ (limStep l op).maxConcurrent := by
  rw [limStep_maxConcurrent]
  cases op <;>
    simp only [limStep, ConcurrencyLimiter.acquire, ConcurrencyLimiter.release,
      ConcurrencyLimiter.clear]
  · split
    · next hlt => simpa using hlt
    · simpa using h
  · rcases hq : releaseLoop l.queue with _ | ⟨wid, rest⟩
    · simpa using Nat.le_trans (Nat.sub_le _ _) h
    · simpa using h
  · simp

lemma limRun_count_le (l : ConcurrencyLimiter) (ops : List LimiterOp)
    (h : l.count ≤ l.maxConcurrent) :
    (limRun l ops).count ≤ (limRun l ops).maxConcurrent := by
  induction ops generalizing l with
  | nil => simpa [limRun] using h
  | cons op ops ih =>
    have := limStep_count_le l op h
    simpa [limRun, List.foldl_cons] using ih (limStep l op) this

lemma limRun_maxConcurrent (l : ConcurrencyLimiter) (ops : List LimiterOp) :
    (limRun l ops).maxConcurrent = l.maxConcurrent := by
  induction ops generalizing l with
  | nil => rfl
  | cons op ops ih =>
    simpa [limRun, List.foldl_cons, limStep_maxConcurrent] using ih (limStep l op)

/-- C3.  After any finite sequence of `acquire`/`release`/`clear` calls from a
freshly constructed limiter, `0 ≤ count ≤ maxConcurrent`.  (Every prefix of a
sequence is itself a sequence, so this bounds the count after every call.) -/
theorem limiter_count_bounded (maxConcurrent : Nat) (ops : List LimiterOp) :
    0 ≤ (limRun (ConcurrencyLimiter.init maxConcurrent) ops).count ∧
      (limRun (ConcurrencyLimiter.init maxConcurrent) ops).count ≤ maxConcurrent := by
  refine ⟨Nat.zero_le _, ?_⟩
  have h := limRun_count_le (ConcurrencyLimiter.init maxConcurrent) ops
    (by simp [ConcurrencyLimiter.init])
  rwa [limRun_maxConcurrent] at h

/-! ### FIFO grant on release (C4) -/

lemma releaseLoop_eq_find (q : List Waiter) :
    releaseLoop q = (q.find? (fun w => !w.settled)).map
      (fun w => (w.wid, (q.dropWhile (fun w => w.settled)).tail)) := by
  induction q with
  | nil => rfl
  | cons w rest ih =>
    by_cases hs : w.settled
    · simp [releaseLoop, hs, List.find?, List.dropWhile, ih]
    · simp [releaseLoop, hs, List.find?, List.dropWhile]

/-- C4.  `release()` grants the slot to the longest-waiting not-yet-settled
waiter — the first unsettled entry in FIFO queue order — without changing the
count; with an empty queue it grants nothing and decrements the count, floored
at 0 (`Nat` subtraction). -/
theorem release_fifo_grant (l : ConcurrencyLimiter) :
    (∀ w, l.queue.find? (fun w => !w.settled) = some w →
        l.release.2 = some w.wid ∧ l.release.1.count = l.count) ∧
    (l.queue = [] →
        l.release = ({ l with count := l.count - 1 }, none)) := by
  constructor
  · intro w hw
    simp [ConcurrencyLimiter.release, releaseLoop_eq_find, hw]
  · intro hq
    simp [ConcurrencyLimiter.release, releaseLoop, hq]

/-- Witness for `release_fifo_grant`: a limiter with one queued waiter grants
it on release; one with an empty queue decrements. -/
theorem release_fifo_grant_witness :
    (let l : ConcurrencyLimiter :=
      { maxConcurrent := 0, count := 0, queue := [⟨0, false⟩], nextWid := 1 }
     l.release.2 = some 0 ∧ l.release.1.count = 0) ∧
    (let l0 : ConcurrencyLimiter := ConcurrencyLimiter.init 2
     l0.release = ({ l0 with count := 0 }, none)) := by
  constructor
  · exact (release_fifo_grant _).1 ⟨0, false⟩ (by decide)
  · exact (release_fifo_grant (ConcurrencyLimiter.init 2)).2 rfl

end Kiwi
